import Mathlib

/-!
Shallow embedding of the request-routing core of `supabase-router-core`.

Modelling conventions:
* Strings are modelled as Lean `String` (sequences of Unicode scalar values).
  JavaScript string lengths and `slice` operate on UTF-16 code units, so the
  embedding measures lengths with `utf16Len` (astral characters count as 2).
* Host-provided functionality that the repository code calls but does not
  implement (Unicode NFKC normalization, the request-body reader, the schema
  validator) is passed in as an explicit function parameter.
* Fallible code (`throw`) is modelled with `Except`/`Option`; thrown
  `Response` objects become explicit constructors of a result type.
-/

namespace RouterCore

/-- UTF-16 length of a string, as used by JavaScript `.length`:
astral-plane characters count as two code units. -/
def utf16Len (s : String) : Nat :=
  s.data.foldl (fun n c => n + (if c.toNat ≥ 0x10000 then 2 else 1)) 0

/-- Models JavaScript `toLowerCase` on the ASCII range (the only range the
repository compares case-insensitively). -/
def lowerStr (s : String) : String :=
  String.mk (s.data.map Char.toLower)

/-- Whether `needle` occurs as a contiguous sublist of `hay`. -/
def subOccurs (needle : List Char) : List Char → Bool
  | [] => needle.isEmpty
  | c :: t => needle.isPrefixOf (c :: t) || subOccurs needle t

/-- Models JavaScript `hay.includes(needle)` (substring containment,
case-sensitive). -/
def strContains (hay needle : String) : Bool :=
  subOccurs needle.data hay.data

/-- Replace every occurrence of the character `c` in `l` by the character
list `repl` (models a global single-character regex replace). -/
def replaceAllChar (c : Char) (repl : List Char) (l : List Char) : List Char :=
  l.flatMap (fun d => if d = c then repl else [d])

/-- Character weight in UTF-16 code units. -/
def utf16Weight (c : Char) : Nat := if c.toNat ≥ 0x10000 then 2 else 1

/-- Take a prefix of at most `n` UTF-16 code units (models `slice(0, n)`;
a character that does not fit entirely is dropped). -/
def takeUtf16 (n : Nat) : List Char → List Char
  | [] => []
  | c :: rest =>
    if utf16Weight c ≤ n then c :: takeUtf16 (n - utf16Weight c) rest else []

/-- From `src/security/sanitizer.ts`: drop control characters
(0x00-0x1F and 0x7F-0x9F). -/
def stripControlCharacters (l : List Char) : List Char :=
  l.filter (fun c => !((c.toNat ≤ 0x1f) || (0x7f ≤ c.toNat && c.toNat ≤ 0x9f)))

/-- From `src/security/sanitizer.ts` step 3: drop zero-width characters
(U+200B-U+200D and U+FEFF). -/
def stripZeroWidth (l : List Char) : List Char :=
  l.filter (fun c => !((0x200B ≤ c.toNat && c.toNat ≤ 0x200D) || c.toNat = 0xFEFF))

/-- Worker for `stripTokenCI`; `fuel` only serves structural recursion
and is set to the list length (each step consumes at least one
character, so the fuel never runs out). -/
def stripTokenCIAux (pat : List Char) : Nat → List Char → List Char
  | _, [] => []
  | 0, l => l
  | fuel + 1, c :: rest =>
    if pat.isPrefixOf ((c :: rest).map Char.toLower) then
      stripTokenCIAux pat fuel (rest.drop (pat.length - 1))
    else
      c :: stripTokenCIAux pat fuel rest

/-- Case-insensitive, non-overlapping, left-to-right removal of the ASCII
token `pat` (models `replace(/pat/gi, "")`; `pat` is given lowercased). -/
def stripTokenCI (pat : List Char) (l : List Char) : List Char :=
  stripTokenCIAux pat l.length l

/-! ## Data model: JSON values, HTTP responses, JavaScript values -/

/-- JSON values, to the precision the claims need (bodies built with
`JSON.stringify` are modelled at the AST level). -/
inductive JVal where
  | str (s : String)
  | obj (fields : List (String × JVal))

/-- A host `Response`: status code, headers (name/value pairs, in insertion
order), and an optional JSON body. -/
structure HttpResponse where
  status : Nat
  headers : List (String × String)
  body : Option JVal

/-- Whether a response carries a header with the given name. -/
def hasHeader (r : HttpResponse) (name : String) : Bool :=
  r.headers.any (fun h => h.1 = name)

/-- Whether the body is a JSON object with an `error` field holding a
string (the `\x7berror: string, details?\x7d` error-body shape). -/
def bodyHasErrorString (r : HttpResponse) : Bool :=
  match r.body with
  | some (.obj fields) => fields.any (fun f => match f with
      | (k, .str _) => k = "error"
      | _ => false)
  | _ => false

/-- A JavaScript value as seen by `typeof`-dispatching code: either a
string or some non-string value. -/
inductive JsValue where
  | str (s : String)
  | nonString
  deriving Repr, DecidableEq

/-! ## `src/security/sanitizer.ts`: `sanitizeErrorMessage` -/

/-- Maximum error-message length (`MAX_ERROR_MESSAGE_LENGTH`). -/
def MAX_ERROR_MESSAGE_LENGTH : Nat := 500

/-- Step 4 of `sanitizeErrorMessage`: remove the dangerous scheme tokens,
case-insensitively, in the order the source applies them. -/
def stripDangerousSchemes (l : List Char) : List Char :=
  stripTokenCI "file:".data
    (stripTokenCI "vbscript:".data
      (stripTokenCI "data:".data
        (stripTokenCI "javascript:".data l)))

/-- Step 5 of `sanitizeErrorMessage`: sequential HTML-escape passes
(`&`, then `<`, `>`, `"`, the single quote, `/`). -/
def htmlEscape (l : List Char) : List Char :=
  replaceAllChar '/' "&#x2F;".data
    (replaceAllChar '\'' "&#x27;".data
      (replaceAllChar '"' "&quot;".data
        (replaceAllChar '>' "&gt;".data
          (replaceAllChar '<' "&lt;".data
            (replaceAllChar '&' "&amp;".data l)))))

/-- `sanitizeErrorMessage` from `src/security/sanitizer.ts`.
`nfkc` is the host Unicode NFKC normalization (`String.normalize("NFKC")`),
passed in explicitly; it is the identity on ASCII strings. -/
def sanitizeErrorMessage (nfkc : String → String) (message : JsValue) : String :=
  match message with
  | .nonString => "Internal server error"
  | .str m =>
    let s1 := nfkc m
    let s2 := stripControlCharacters s1.data
    let s3 := stripZeroWidth s2
    let s4 := stripDangerousSchemes s3
    let escaped := htmlEscape s4
    String.mk (takeUtf16 MAX_ERROR_MESSAGE_LENGTH escaped)

/-! ## `src/errors/http-errors.ts`: error response constructors -/

/-- `createErrorResponse` from the errors module: sanitized message, JSON
body, `Content-Type` and `X-Content-Type-Options` headers. -/
def createErrorResponse (nfkc : String → String) (message : String)
    (status : Nat) (cause : Option JVal) : HttpResponse :=
  { status := status
    headers := [("Content-Type", "application/json"),
                ("X-Content-Type-Options", "nosniff")]
    body := some (.obj
      ([("error", .str (sanitizeErrorMessage nfkc (.str message)))] ++
        (match cause with
         | some c => [("cause", c)]
         | none => []))) }

/-- `unauthorized(message)` - a 401 error response. -/
def unauthorized (nfkc : String → String) (message : String) : HttpResponse :=
  createErrorResponse nfkc message 401 none

/-- `forbidden(message)` - a 403 error response. -/
def forbidden (nfkc : String → String) (message : String) : HttpResponse :=
  createErrorResponse nfkc message 403 none

/-! ## Host `decodeURIComponent`, modelled strictly -/

/-- Value of a hexadecimal digit character, if any. -/
def hexDigitVal (c : Char) : Option Nat :=
  if '0' ≤ c ∧ c ≤ '9' then some (c.toNat - 48)
  else if 'a' ≤ c ∧ c ≤ 'f' then some (c.toNat - 87)
  else if 'A' ≤ c ∧ c ≤ 'F' then some (c.toNat - 55)
  else none

/-- UTF-8 encoding of one Unicode scalar value. -/
def utf8EncodeChar (c : Char) : List Nat :=
  let v := c.toNat
  if v < 0x80 then [v]
  else if v < 0x800 then [0xC0 + v / 64, 0x80 + v % 64]
  else if v < 0x10000 then
    [0xE0 + v / 4096, 0x80 + (v / 64) % 64, 0x80 + v % 64]
  else
    [0xF0 + v / 262144, 0x80 + (v / 4096) % 64, 0x80 + (v / 64) % 64,
     0x80 + v % 64]

/-- Turn a percent-encoded character sequence into a byte sequence:
each `%XX` escape contributes the byte `XX`, any other character
contributes its UTF-8 bytes. Fails when a `%` is not followed by two
hexadecimal digits (as `decodeURIComponent` does). -/
def pctBytes : List Char → Option (List Nat)
  | [] => some []
  | '%' :: a :: b :: rest => do
    let ha ← hexDigitVal a
    let hb ← hexDigitVal b
    let tail ← pctBytes rest
    pure ((16 * ha + hb) :: tail)
  | ['%'] => none
  | ['%', _] => none
  | c :: rest => do
    let tail ← pctBytes rest
    pure (utf8EncodeChar c ++ tail)

/-- Whether a byte is a UTF-8 continuation byte (0x80-0xBF). -/
def isCont (b : Nat) : Bool := 0x80 ≤ b && b ≤ 0xBF

/-- Strict UTF-8 decoding: rejects truncated sequences, stray continuation
bytes, overlong encodings, surrogates and values above U+10FFFF - the
sequences `decodeURIComponent` raises `URIError` on. -/
def utf8Decode : List Nat → Option (List Char)
  | [] => some []
  | b :: rest =>
    if b < 0x80 then do
      let t ← utf8Decode rest
      pure (Char.ofNat b :: t)
    else if b < 0xC2 then none
    else if b < 0xE0 then
      match rest with
      | b1 :: r =>
        if isCont b1 then do
          let t ← utf8Decode r
          pure (Char.ofNat ((b - 0xC0) * 64 + (b1 - 0x80)) :: t)
        else none
      | [] => none
    else if b < 0xF0 then
      match rest with
      | b1 :: b2 :: r =>
        let lo1 := if b = 0xE0 then 0xA0 else 0x80
        let hi1 := if b = 0xED then 0x9F else 0xBF
        if (lo1 ≤ b1 && b1 ≤ hi1) && isCont b2 then do
          let t ← utf8Decode r
          pure (Char.ofNat ((b - 0xE0) * 4096 + (b1 - 0x80) * 64 + (b2 - 0x80)) :: t)
        else none
      | _ => none
    else if b < 0xF5 then
      match rest with
      | b1 :: b2 :: b3 :: r =>
        let lo1 := if b = 0xF0 then 0x90 else 0x80
        let hi1 := if b = 0xF4 then 0x8F else 0xBF
        if ((lo1 ≤ b1 && b1 ≤ hi1) && isCont b2) && isCont b3 then do
          let t ← utf8Decode r
          pure (Char.ofNat
            ((b - 0xF0) * 262144 + (b1 - 0x80) * 4096 + (b2 - 0x80) * 64 +
              (b3 - 0x80)) :: t)
        else none
      | _ => none
    else none

/-- Host `decodeURIComponent`: percent-unescape to bytes, then strict
UTF-8 decoding; `none` models a thrown `URIError`. -/
def decodeURIComponent (s : String) : Option String :=
  (pctBytes s.data).bind (fun bs => (utf8Decode bs).map String.mk)

/-! ## `src/security/sanitizer.ts`: `sanitizePathParam` -/

/-- Maximum path-parameter length (`MAX_PATH_PARAM_LENGTH`). -/
def MAX_PATH_PARAM_LENGTH : Nat := 200

/-- `sanitizePathParam` from `src/security/sanitizer.ts`: length check
first (before decoding), then encoded-traversal markers, then URL
decoding, then decoded length, decoded traversal and NUL checks. -/
def sanitizePathParam (value : String) : Except String String :=
  if utf16Len value > MAX_PATH_PARAM_LENGTH then
    .error "Invalid path parameter: exceeds maximum length of 200 characters"
  else if strContains (lowerStr value) "%2e%2e" ||
      strContains (lowerStr value) "%2f" ||
      strContains (lowerStr value) "%5c" then
    .error "Invalid path parameter: encoded traversal detected"
  else
    match decodeURIComponent value with
    | none => .error "Invalid URL encoding in path parameter"
    | some decoded =>
      if utf16Len decoded > MAX_PATH_PARAM_LENGTH then
        .error "Invalid path parameter: decoded value exceeds maximum length of 200 characters"
      else if strContains decoded ".." || strContains decoded "/" ||
          strContains decoded "\\" then
        .error "Invalid path parameter: path traversal detected"
      else if strContains decoded "\x00" then
        .error "Invalid path parameter: null byte detected"
      else
        .ok decoded

/-! ## `src/security/sanitizer.ts`: `parseQuerySafely` -/

/-- `DANGEROUS_QUERY_KEYS` from `src/core/constants.ts`. -/
def DANGEROUS_QUERY_KEYS : List String := ["__proto__", "constructor", "prototype"]

/-- The key-filtering rules of `parseQuerySafely`: not a dangerous key,
no bracket characters, does not start with an underscore. -/
def isAllowedQueryKey (k : String) : Bool :=
  !(DANGEROUS_QUERY_KEYS.contains k) &&
  !(strContains k "[" || strContains k "]") &&
  !("_".data.isPrefixOf k.data)

/-- First value associated to `k` in an entry list (assoc-list lookup,
models reading a property of the built prototype-free object). -/
def lookupFirst (l : List (String × String)) (k : String) : Option String :=
  (l.find? (fun e => e.1 = k)).map (fun e => e.2)

/-- The `searchParams.forEach` loop body of `parseQuerySafely`: skip keys
already present (first occurrence wins), dangerous keys, bracketed keys
and keys starting with an underscore; otherwise insert. -/
def parseQueryStep (acc : List (String × String)) (kv : String × String) :
    List (String × String) :=
  if acc.any (fun e => e.1 = kv.1) then acc
  else if DANGEROUS_QUERY_KEYS.contains kv.1 then acc
  else if strContains kv.1 "[" || strContains kv.1 "]" then acc
  else if "_".data.isPrefixOf kv.1.data then acc
  else acc ++ [kv]

/-- `parseQuerySafely` from `src/security/sanitizer.ts`, over the entry
sequence of the given `URLSearchParams`. The result models the
prototype-free object (`Object.create(null)`): its properties are exactly
the inserted pairs, with nothing inherited. -/
def parseQuerySafely (entries : List (String × String)) : List (String × String) :=
  entries.foldl parseQueryStep []

/-- Split a character list at every occurrence of `sep`, keeping empty
segments. -/
def splitList (sep : Char) (l : List Char) : List (List Char) :=
  l.foldr (fun c acc =>
    match acc with
    | [] => if c = sep then [[], []] else [[c]]
    | cur :: rest => if c = sep then [] :: cur :: rest else (c :: cur) :: rest)
    [[]]

/-- Models host `URLSearchParams` parsing of a raw query string,
restricted to queries without percent-escapes (sufficient for the inputs
considered here): split on ampersands, drop empty segments, split each
segment at the first equals sign (no equals sign means an empty value),
map plus signs to spaces. -/
def urlSearchEntries (raw : String) : List (String × String) :=
  (splitList '&' raw.data).filterMap (fun seg =>
    if seg.isEmpty then none
    else
      let plusToSpace := fun (l : List Char) =>
        l.map (fun c => if c = '+' then ' ' else c)
      let k := seg.takeWhile (fun c => c ≠ '=')
      let v := (seg.dropWhile (fun c => c ≠ '=')).drop 1
      some (String.mk (plusToSpace k), String.mk (plusToSpace v)))

/-! ## `src/authentication/rbac.ts` and `validateAuthResult` -/

/-- `checkRoles` from `src/authentication/rbac.ts`: membership of the
user role in the allow-list (empty list always refuses). -/
def checkRoles {R : Type} [DecidableEq R] (userRole : R) (allowedRoles : List R) : Bool :=
  if allowedRoles.length = 0 then false
  else allowedRoles.contains userRole

/-- `AuthOptions` from `src/core/types.ts`. Absent optional booleans are
falsy in the source, so they are modelled as `Bool` with default `false`;
`allowedRoles` keeps the absent/present distinction. -/
structure AuthOptions (R : Type) where
  allowedMethods : Option (List String) := none
  requireServiceRole : Bool := false
  bypassWithServiceRole : Bool := false
  bypassWithAnonRole : Bool := false
  requireUserAuth : Bool := false
  requireRBAC : Bool := false
  allowedRoles : Option (List R) := none

/-- `AuthResult` from `src/core/types.ts`: either an error response or
identity/client data. `C` is the opaque client type. -/
structure AuthResult (U C R : Type) where
  response : Option HttpResponse := none
  supabaseClient : Option C := none
  serviceRoleClient : Option C := none
  user : Option U := none
  serviceBypassed : Bool := false

/-- `validateAuthResult` from `src/authentication/authenticator.ts`
(src/unnamed/part_000). `userRole` reads the optional `role` property of
the user value. -/
def validateAuthResult {U C R : Type} [DecidableEq R] (nfkc : String → String)
    (userRole : U → Option R) (result : AuthResult U C R)
    (options : AuthOptions R) : AuthResult U C R :=
  if result.response.isSome then result
  else if result.serviceBypassed then result
  else if options.requireUserAuth && result.user.isNone then
    { response := some (unauthorized nfkc "User authentication required") }
  else
    match result.user with
    | none => result
    | some u =>
      if options.requireRBAC then
        match userRole u with
        | none => { response := some (forbidden nfkc "User role not found") }
        | some r =>
          match options.allowedRoles with
          | none =>
            { response := some (forbidden nfkc "No roles configured for this route") }
          | some roles =>
            if roles.length = 0 then
              { response := some (forbidden nfkc "No roles configured for this route") }
            else if !(checkRoles r roles) then
              { response := some (forbidden nfkc "Insufficient permissions") }
            else result
      else result

/-! ## `src/routing`: path compiler (`src/unnamed/part_001`, compiler.ts) -/

/-- Whether a character may start a parameter name (`[a-zA-Z_]`). -/
def isNameStart (c : Char) : Bool :=
  ('a' ≤ c && c ≤ 'z') || ('A' ≤ c && c ≤ 'Z') || c = '_'

/-- Whether a character may continue a parameter name (`[a-zA-Z0-9_]`). -/
def isNameChar (c : Char) : Bool :=
  isNameStart c || ('0' ≤ c && c ≤ '9')

/-- `isValidParamName`: full match of `^[a-zA-Z_][a-zA-Z0-9_]*$`
(`PATH_PARAM_NAME_REGEX`). -/
def isValidParamName (name : String) : Bool :=
  match name.data with
  | [] => false
  | c :: rest => isNameStart c && rest.all isNameChar

/-- `SAFE_PATH_PARAM_PATTERN` from `src/core/constants.ts` (the quote
character is inserted explicitly). -/
def SAFE_PATH_PARAM_PATTERN : String :=
  "([a-zA-Z0-9_%.=" ++ String.mk ['\''] ++ "\\-]\x7b1,200\x7d)"

/-- One left-to-right scan of the path realising both
`matchAll(/:([a-zA-Z_][a-zA-Z0-9_]*)/g)` (first component: the raw
parameter-name matches, in order) and the replacement of each match by
`SAFE_PATH_PARAM_PATTERN` (second component: the replaced pattern text).
A colon not followed by a name-start character matches nothing and stays
literal text. -/
def scanPathAux : Nat → List Char → List String × List Char
  | _, [] => ([], [])
  | 0, l => ([], l)
  | fuel + 1, ':' :: c :: rest =>
    if isNameStart c then
      let name := c :: rest.takeWhile isNameChar
      let (ns, out) := scanPathAux fuel (rest.dropWhile isNameChar)
      (String.mk name :: ns, SAFE_PATH_PARAM_PATTERN.data ++ out)
    else
      let (ns, out) := scanPathAux fuel (c :: rest)
      (ns, ':' :: out)
  | fuel + 1, c :: rest =>
    let (ns, out) := scanPathAux fuel rest
    (ns, c :: out)

/-- See `scanPathAux`; the fuel is the list length (each step consumes at
least one character). -/
def scanPath (l : List Char) : List String × List Char :=
  scanPathAux l.length l

/-- The raw parameter-name matches of a path, in order of appearance. -/
def rawParamMatches (path : String) : List String :=
  (scanPath path.data).1

/-- The loop of `extractParamNames` (src/unnamed/part_001): reject an
invalid name, reject a duplicate, otherwise collect in order. -/
def buildParams (acc : List String) : List String → Except String (List String)
  | [] => .ok acc
  | n :: rest =>
    if !(isValidParamName n) then .error ("Invalid parameter name: " ++ n)
    else if acc.contains n then .error ("Duplicate parameter name: " ++ n)
    else buildParams (acc ++ [n]) rest

/-- `extractParamNames` from `src/unnamed/part_001`. -/
def extractParamNames (path : String) : Except String (List String) :=
  buildParams [] (rawParamMatches path)

/-- `validatePathSafety` from `src/unnamed/part_001`: reject `..`,
percent-encoded `..` case-insensitively, and NUL bytes. -/
def validatePathSafety (path : String) : Except String Unit :=
  if strContains path ".." then
    .error "Path traversal attempt detected in route path"
  else if strContains (lowerStr path) "%2e%2e" then
    .error "Encoded path traversal detected in route path"
  else if strContains path "\x00" then
    .error "Null byte detected in route path"
  else
    .ok ()

/-- A compiled route matcher: the anchored regex source text and the
ordered parameter names. -/
structure CompiledPattern where
  pattern : String
  params : List String

/-- `compileRoute` from `src/routing/compiler.ts`: safety validation,
parameter extraction, then construction of the anchored matcher. -/
def compileRoute (path : String) : Except String CompiledPattern :=
  match validatePathSafety path with
  | .error e => .error e
  | .ok _ =>
    match extractParamNames path with
    | .error e => .error e
    | .ok params =>
      .ok { pattern := "^" ++ String.mk (scanPath path.data).2 ++ "$"
            params := params }

/-- The colon tokens of a path under the naive reading of "declared
parameter": after each colon, the maximal run of characters other than a
slash or another colon. Used to state what a path *appears* to declare. -/
def colonTokensAux : Nat → List Char → List String
  | _, [] => []
  | 0, _ => []
  | fuel + 1, ':' :: rest =>
    let tok := rest.takeWhile (fun c => c ≠ '/' && c ≠ ':')
    String.mk tok :: colonTokensAux fuel (rest.dropWhile (fun c => c ≠ '/' && c ≠ ':'))
  | fuel + 1, _ :: rest => colonTokensAux fuel rest

/-- See `colonTokensAux`; the fuel is the list length. -/
def colonTokens (l : List Char) : List String :=
  colonTokensAux l.length l

/-! ## `src/middleware/composer.ts` (src/unnamed/part_005) -/

/-- The per-invocation state threaded through a middleware chain: the
`index` counter of the dispatcher closure (starts at -1) and an
observation log recording execution order. -/
structure MwState where
  index : Int
  log : List String
  deriving Repr, DecidableEq

/-- A middleware result: final state and either a response status or a
rejection message. -/
abbrev MwResult := MwState × Except String Nat

/-- A middleware `(ctx, next) => response`, with the mutable context and
promise effects made explicit as state passing. -/
abbrev Mw := (MwState → MwResult) → MwState → MwResult

/-- The `dispatch` closure of `composeMiddlewares`: guard against calling
`next` twice for the same position, advance the counter, and run either
the `i`-th middleware or the terminal one. `fuel` bounds the recursion
depth (the source recursion is unbounded). -/
def dispatch (mws : List Mw) (last : Mw) : Nat → Nat → MwState → MwResult
  | 0, _, s => (s, .error "out of fuel")
  | fuel + 1, i, s =>
    if (i : Int) ≤ s.index then
      (s, .error "next() called multiple times")
    else
      let s1 := { s with index := (i : Int) }
      let mw := if h : i < mws.length then mws[i] else last
      mw (dispatch mws last fuel (i + 1)) s1

/-- `composeMiddlewares` from `src/unnamed/part_005`. The returned
function receives the terminal middleware `last` (as in the source,
whose returned closure is typed `(ctx, last: Middleware)`); each
invocation starts a fresh `index = -1` counter and dispatches from
position 0. The empty list composes to a pass-through that invokes its
continuation with no arguments (so a `last` that does call its own
continuation observes an undefined function). -/
def composeMiddlewares (fuel : Nat) (mws : List Mw) : Mw → MwState → MwResult :=
  if mws.isEmpty then
    fun next s => next (fun s2 => (s2, .error "next is not a function")) s
  else fun last s => dispatch mws last fuel 0 { s with index := -1 }

/-- A well-behaved middleware that logs `before`, calls `next` once, and
logs `after` on success. -/
def mwWrap (before after : String) : Mw := fun next s =>
  let s1 := { s with log := s.log ++ [before] }
  match next s1 with
  | (s2, .ok r) => ({ s2 with log := s2.log ++ [after] }, .ok r)
  | (s2, .error e) => (s2, .error e)

/-- A terminal handler that logs `tag` and returns status 200 without
calling its continuation. -/
def handlerH (tag : String) : Mw := fun _ s =>
  ({ s with log := s.log ++ [tag] }, .ok 200)

/-- A faulty middleware that calls `next` twice in one invocation. -/
def mwDouble : Mw := fun next s =>
  match next s with
  | (s1, .ok _) => next s1
  | e => e

/-! ## `src/validation/dto-validator.ts`: `parseAndValidateBody` -/

/-- A declared body schema: a single schema, or a mapping from
content-type string to schema (`typeof bodySchema === "object"` without
`safeParse`). -/
inductive BodySchemaSpec (S : Type) where
  | single (s : S)
  | multi (entries : List (String × S))

/-- Outcome of `parseAndValidateBody`: a validated value, a thrown 400
validation `Response`, a thrown 415 `Response`, or a thrown plain error
(for instance the unsupported-content-type error of
`parseBodyByContentType`). -/
inductive BodyOutcome (E D : Type) where
  | success (d : D)
  | invalid400 (errors : E)
  | unsupported415
  | thrownErr (msg : String)

/-- The 415 `Response` thrown by `parseAndValidateBody`: JSON error body,
`Content-Type` header only. -/
def unsupportedMediaTypeResponse : HttpResponse :=
  { status := 415
    headers := [("Content-Type", "application/json")]
    body := some (.obj [("error", .str "Unsupported Media Type")]) }

/-- `parseAndValidateBody` from `src/validation/dto-validator.ts`.
`parseBody` models `parseBodyByContentType` applied to the request (host
I/O; an `Except.error` is a thrown non-`Response` error) and `validate`
models `validateDTO` with the opaque schema library. -/
def parseAndValidateBody {B S E D : Type}
    (parseBody : String → Except String B)
    (validate : S → B → Except E D)
    (bodySchema : BodySchemaSpec S) (contentType : String)
    (supportedContentTypes : Option (List String)) : BodyOutcome E D :=
  match bodySchema with
  | .multi entries =>
    match entries.find? (fun e => strContains contentType e.1) with
    | some (_, typeSchema) =>
      match parseBody contentType with
      | .error msg => .thrownErr msg
      | .ok rawBody =>
        match validate typeSchema rawBody with
        | .error errs => .invalid400 errs
        | .ok d => .success d
    | none => .unsupported415
  | .single schema =>
    match supportedContentTypes with
    | some l =>
      if l.length > 0 && !(l.any (fun t => strContains contentType t)) then
        .unsupported415
      else
        match parseBody contentType with
        | .error msg => .thrownErr msg
        | .ok rawBody =>
          match validate schema rawBody with
          | .error errs => .invalid400 errs
          | .ok d => .success d
    | none =>
      match parseBody contentType with
      | .error msg => .thrownErr msg
      | .ok rawBody =>
        match validate schema rawBody with
        | .error errs => .invalid400 errs
        | .ok d => .success d

/-! ## Dispatcher error responses (src/unnamed/part_009, `handler`) -/

/-- The permissive default CORS header set the dispatcher computes per
request (`defaultCors` in the handler). -/
def defaultCorsHeaders (allowedMethods : List String) : List (String × String) :=
  [("Access-Control-Allow-Origin", "*"),
   ("Access-Control-Allow-Methods", String.intercalate ", " allowedMethods),
   ("Access-Control-Allow-Headers", "authorization, x-client-info, apikey, content-type"),
   ("Access-Control-Max-Age", "86400")]

/-- The 404 response the dispatcher returns when no route matches: JSON
error body, and `defaultCors` as its only headers. -/
def noMatchResponse (allowedMethods : List String) : HttpResponse :=
  { status := 404
    headers := defaultCorsHeaders allowedMethods
    body := some (.obj [("error", .str "Not Found")]) }

/-- The 400 response the dispatcher returns when `sanitizePathParam`
throws: sanitized message, CORS headers plus `Content-Type`. -/
def sanitizeFailResponse (nfkc : String → String)
    (corsHeaders : List (String × String)) (msg : String) : HttpResponse :=
  { status := 400
    headers := corsHeaders ++ [("Content-Type", "application/json")]
    body := some (.obj [("error", .str (sanitizeErrorMessage nfkc (.str msg)))]) }

/-! ## Claim C1 -/

/-- C1: for every auth result carrying a present user, no error response
and no service bypass, `validateAuthResult` with options
`requireRBAC: true, allowedRoles: []` returns an error response with
status 403 regardless of the role value: a missing role yields the
User role not found message, and the empty allow-list yields the
No roles configured for this route message (the NFKC host normalization
is the identity on these ASCII messages, so with `nfkc = id` the bodies
are literal). -/
theorem c1_rbac_empty_allowlist_always_403 :
    (∀ (U C R : Type) [DecidableEq R] (nfkc : String → String)
        (userRole : U → Option R) (result : AuthResult U C R),
      result.response = none → result.serviceBypassed = false →
      ∀ u, result.user = some u →
      ∃ resp,
        (validateAuthResult nfkc userRole result
            { requireRBAC := true, allowedRoles := some [] }).response = some resp ∧
        resp.status = 403 ∧
        resp.body = some (.obj [("error", .str (sanitizeErrorMessage nfkc
          (.str (if userRole u = none then "User role not found"
                 else "No roles configured for this route"))))])) ∧
    sanitizeErrorMessage id (.str "User role not found") = "User role not found" ∧
    sanitizeErrorMessage id (.str "No roles configured for this route") =
      "No roles configured for this route" := by
  refine ⟨?_, by decide, by decide⟩
  intro U C R _ nfkc userRole result h1 h2 u hu
  cases hru : userRole u <;>
    simp [validateAuthResult, h1, h2, hu, hru, forbidden, createErrorResponse]

/-- C1 witness: concrete instantiation with a user whose role is absent. -/
theorem c1_witness :
    ∃ resp,
      (validateAuthResult (U := Unit) (C := Unit) (R := String) id
          (fun _ => none) { user := some () }
          { requireRBAC := true, allowedRoles := some [] }).response = some resp ∧
      resp.status = 403 ∧
      resp.body = some (.obj [("error", .str (sanitizeErrorMessage id
        (.str (if (fun _ : Unit => (none : Option String)) () = none
               then "User role not found"
               else "No roles configured for this route"))))]) :=
  c1_rbac_empty_allowlist_always_403.1 Unit Unit String id
    (fun _ => none) { user := some () } rfl rfl () rfl

/-! ## Claim C10 -/

/-- C10: for every auth result with no error response, no service bypass
and no user, and every options value whose `requireUserAuth` is false
(absent), `validateAuthResult` returns the input unchanged - even when
`requireRBAC` is true. -/
theorem c10_no_user_no_requireUserAuth_passthrough :
    ∀ (U C R : Type) [DecidableEq R] (nfkc : String → String)
      (userRole : U → Option R) (result : AuthResult U C R)
      (options : AuthOptions R),
    options.requireUserAuth = false → result.response = none →
    result.serviceBypassed = false → result.user = none →
    validateAuthResult nfkc userRole result options = result := by
  intro U C R _ nfkc userRole result options hua h1 h2 hu
  simp [validateAuthResult, hua, h1, h2, hu]

/-- C10 witness: concrete instantiation with RBAC enabled and no user. -/
theorem c10_witness :
    validateAuthResult (U := Unit) (C := Unit) (R := String) id (fun _ => none)
      {} { requireRBAC := true, allowedRoles := some ["admin"] } =
      ({} : AuthResult Unit Unit String) :=
  c10_no_user_no_requireUserAuth_passthrough Unit Unit String id (fun _ => none)
    {} { requireRBAC := true, allowedRoles := some ["admin"] } rfl rfl rfl rfl

/-! ## Claim C2 -/

/-- C2: composing `[A, B]` around a terminal handler `H` executes, for
every choice of the logged labels, in the order A-before, B-before, H,
B-after, A-after; the `dispatch` guard turns any second call of `next`
for an already-reached position into the rejection
next() called multiple times; and in the concrete double-calling
scenario the downstream handler runs exactly once (the log holds a
single H entry) while the rejection is surfaced. -/
theorem c2_composeMiddlewares_order_and_double_next :
    (∀ aBefore aAfter bBefore bAfter hTag : String,
      composeMiddlewares 9 [mwWrap aBefore aAfter, mwWrap bBefore bAfter]
          (handlerH hTag) { index := 0, log := [] } =
        ({ index := 2, log := [aBefore, bBefore, hTag, bAfter, aAfter] }, .ok 200)) ∧
    (∀ (mws : List Mw) (last : Mw) (fuel i : Nat) (s : MwState),
      (i : Int) ≤ s.index →
      dispatch mws last (fuel + 1) i s = (s, .error "next() called multiple times")) ∧
    composeMiddlewares 9 [mwDouble] (handlerH "H") { index := 0, log := [] } =
      ({ index := 1, log := ["H"] }, .error "next() called multiple times") := by
  refine ⟨?_, ?_, by rfl⟩
  · intro aBefore aAfter bBefore bAfter hTag
    rfl
  · intro mws last fuel i s h
    simp [dispatch, h]

/-- C2 witness: the double-call guard applied at a concrete reached
position. -/
theorem c2_witness :
    dispatch [] (handlerH "H") 1 0 { index := 0, log := [] } =
      ({ index := 0, log := [] }, .error "next() called multiple times") :=
  c2_composeMiddlewares_order_and_double_next.2.1 [] (handlerH "H") 0 0
    { index := 0, log := [] } (by decide)

/-! ## Claim C5 -/

/-- C5: every path pattern containing a raw `..`, a percent-encoded
`%2e%2e` in any letter case, or a NUL byte makes `compileRoute` fail
with an error, so no matcher is constructed. -/
theorem c5_compileRoute_rejects_traversal :
    ∀ path : String,
    strContains path ".." = true ∨
      strContains (lowerStr path) "%2e%2e" = true ∨
      strContains path "\x00" = true →
    ∃ e, compileRoute path = .error e := by
  intro path h
  cases e1 : strContains path ".." <;>
    cases e2 : strContains (lowerStr path) "%2e%2e" <;>
      cases e3 : strContains path "\x00" <;>
        simp_all [compileRoute, validatePathSafety]

/-- C5 witness: a concrete traversal pattern is rejected. -/
theorem c5_witness :
    ∃ e, compileRoute "/a/../b" = .error e :=
  c5_compileRoute_rejects_traversal "/a/../b" (Or.inl (by decide))

/-! ## Claim C3 -/

/-- The parameter names of a successfully compiled path, if any. -/
def compiledParams (path : String) : Option (List String) :=
  (compileRoute path).toOption.map (fun m => m.params)

/-- Every success of the `extractParamNames` loop returns exactly the
accumulator followed by the processed names. -/
theorem buildParams_ok_eq :
    ∀ (l acc r : List String), buildParams acc l = .ok r → r = acc ++ l := by
  intro l
  induction l with
  | nil => intro acc r h; simp_all [buildParams]
  | cons n rest ih =>
    intro acc r h
    simp only [buildParams] at h
    by_cases h1 : isValidParamName n = true <;> simp [h1] at h
    by_cases h2 : n ∈ acc <;> simp [h2] at h
    simpa using ih (acc ++ [n]) r h

/-- Every success of the `extractParamNames` loop has pairwise-distinct
names (given a duplicate-free accumulator). -/
theorem buildParams_ok_nodup :
    ∀ (l acc r : List String), buildParams acc l = .ok r → acc.Nodup →
      (acc ++ l).Nodup := by
  intro l
  induction l with
  | nil => intro acc r h hacc; simpa using hacc
  | cons n rest ih =>
    intro acc r h hacc
    simp only [buildParams] at h
    by_cases h1 : isValidParamName n = true <;> simp [h1] at h
    by_cases h2 : n ∈ acc <;> simp [h2] at h
    have : ((acc ++ [n]) ++ rest).Nodup :=
      ih (acc ++ [n]) r h (by simp [List.nodup_append, hacc, h2])
    simpa using this

/-- Every success of the `extractParamNames` loop only contains names
matching the parameter-name pattern. -/
theorem buildParams_ok_valid :
    ∀ (l acc r : List String), buildParams acc l = .ok r →
      ∀ a ∈ l, isValidParamName a = true := by
  intro l
  induction l with
  | nil => intro acc r _ a ha; simp at ha
  | cons n rest ih =>
    intro acc r h a ha
    simp only [buildParams] at h
    by_cases h1 : isValidParamName n = true <;> simp [h1] at h
    by_cases h2 : n ∈ acc <;> simp [h2] at h
    rcases List.mem_cons.mp ha with rfl | hmem
    · exact h1
    · exact ih (acc ++ [n]) r h a hmem

/-- C3 counterexample: the path `/users/:user-id` declares (in the naive
colon-token reading the claim uses) the parameter name `user-id`, which
does not match `^[A-Za-z_][A-Za-z0-9_]*$`; yet `compileRoute` succeeds
and returns a matcher - the extraction regex only takes the well-formed
prefix `user` and leaves `-id` as literal text. -/
theorem c3_counterexample_malformed_name_compiles :
    colonTokens "/users/:user-id".data = ["user-id"] ∧
    isValidParamName "user-id" = false ∧
    compiledParams "/users/:user-id" = some ["user"] := by
  refine ⟨by decide, by decide, by decide⟩

/-- C3 amended: parameter declarations are exactly the maximal matches of
`:[A-Za-z_][A-Za-z0-9_]*`; malformed colon tokens are never extracted
(so they cannot make compilation fail), every returned matcher carries
only valid, pairwise-distinct parameter names, and a duplicated
extracted name always makes `compileRoute` fail with an error instead of
returning a matcher. -/
theorem c3_amended_duplicates_fail_and_params_valid :
    ∀ path : String,
    (¬ (rawParamMatches path).Nodup → ∃ e, compileRoute path = .error e) ∧
    (∀ m, compileRoute path = .ok m →
      m.params.Nodup ∧ ∀ n ∈ m.params, isValidParamName n = true) := by
  intro path
  constructor
  · intro hdup
    cases hv : validatePathSafety path with
    | error e => exact ⟨e, by simp [compileRoute, hv]⟩
    | ok u =>
      cases he : extractParamNames path with
      | error e => exact ⟨e, by simp [compileRoute, hv, he]⟩
      | ok params =>
        have he' : buildParams [] (rawParamMatches path) = .ok params := he
        exact absurd
          (by simpa using buildParams_ok_nodup _ _ _ he' List.nodup_nil) hdup
  · intro m hm
    cases hv : validatePathSafety path with
    | error e => simp [compileRoute, hv] at hm
    | ok u =>
      cases he : extractParamNames path with
      | error e => simp [compileRoute, hv, he] at hm
      | ok params =>
        have he' : buildParams [] (rawParamMatches path) = .ok params := he
        have heq : params = rawParamMatches path := by
          simpa using buildParams_ok_eq _ _ _ he'
        have hp : m.params = params := by
          simp [compileRoute, hv, he] at hm
          rw [← hm]
        rw [hp, heq]
        exact ⟨by simpa using buildParams_ok_nodup _ _ _ he' List.nodup_nil,
          fun n hn => buildParams_ok_valid _ _ _ he' n (heq ▸ hn)⟩

/-- C3 witness: a concrete duplicated parameter name is rejected. -/
theorem c3_witness :
    ∃ e, compileRoute "/a/:x/b/:x" = .error e :=
  (c3_amended_duplicates_fail_and_params_valid "/a/:x/b/:x").1 (by decide)

/-! ## Claim C7 -/

/-- Assoc-list lookup on the empty list. -/
theorem lookupFirst_nil (k : String) : lookupFirst [] k = none := rfl

/-- Assoc-list lookup after a cons. -/
theorem lookupFirst_cons (kv : String × String) (l : List (String × String))
    (k : String) :
    lookupFirst (kv :: l) k = if kv.1 = k then some kv.2 else lookupFirst l k := by
  by_cases h : kv.1 = k <;> simp [lookupFirst, List.find?_cons, h]

/-- Assoc-list lookup distributes over append as an `Option.or`. -/
theorem lookupFirst_append (l1 l2 : List (String × String)) (k : String) :
    lookupFirst (l1 ++ l2) k = (lookupFirst l1 k).or (lookupFirst l2 k) := by
  unfold lookupFirst
  rw [List.find?_append]
  cases List.find? (fun e => decide (e.1 = k)) l1 <;> simp [Option.or]

/-- A key is absent from the lookup exactly when no entry carries it. -/
theorem lookupFirst_eq_none_iff (acc : List (String × String)) (k : String) :
    lookupFirst acc k = none ↔ acc.any (fun e => e.1 = k) = false := by
  simp [lookupFirst, List.find?_eq_none, List.any_eq_false]

/-- The loop body of `parseQuerySafely`, rephrased: skip if the key is
already present, insert only allowed keys. -/
theorem parseQueryStep_eq (acc : List (String × String)) (kv : String × String) :
    parseQueryStep acc kv =
      if acc.any (fun e => e.1 = kv.1) then acc
      else if isAllowedQueryKey kv.1 then acc ++ [kv] else acc := by
  unfold parseQueryStep isAllowedQueryKey
  cases h0 : acc.any (fun e => decide (e.1 = kv.1)) <;>
  cases h1 : DANGEROUS_QUERY_KEYS.contains kv.1 <;>
  cases h2 : strContains kv.1 "[" <;>
  cases h3 : strContains kv.1 "]" <;>
  cases h4 : "_".data.isPrefixOf kv.1.data <;>
  simp [h0, h1, h2, h3, h4]

/-- Characterization of the `parseQuerySafely` fold: looking up a key in
the result reads the accumulator first and otherwise, for allowed keys
only, the first value of the key in the remaining entries. -/
theorem parseQuerySafely_foldl_lookup :
    ∀ (l acc : List (String × String)) (k : String),
      lookupFirst (l.foldl parseQueryStep acc) k =
        (lookupFirst acc k).or
          (if isAllowedQueryKey k then lookupFirst l k else none) := by
  intro l
  induction l with
  | nil =>
    intro acc k
    simp [lookupFirst_nil, Option.or_none]
  | cons kv rest ih =>
    intro acc k
    rw [List.foldl_cons, ih, parseQueryStep_eq, lookupFirst_cons]
    by_cases hk : kv.1 = k
    · subst hk
      cases hacc : lookupFirst acc kv.1 with
      | some v =>
        have h0 : acc.any (fun e => e.1 = kv.1) = true := by
          rcases h : acc.any (fun e => e.1 = kv.1) with _ | _
          · rw [← lookupFirst_eq_none_iff] at h; simp [h] at hacc
          · rfl
        simp [h0, hacc, Option.or]
      | none =>
        have h0 : acc.any (fun e => e.1 = kv.1) = false :=
          (lookupFirst_eq_none_iff acc kv.1).mp hacc
        cases ha : isAllowedQueryKey kv.1 <;>
          simp [h0, ha, hacc, Option.or, lookupFirst_append, lookupFirst_cons,
            lookupFirst_nil]
    · have hsingle : lookupFirst [kv] k = none := by
        simp [lookupFirst_cons, lookupFirst_nil, hk]
      by_cases h0 : acc.any (fun e => e.1 = kv.1) = true <;>
        cases ha : isAllowedQueryKey kv.1 <;>
          simp [h0, ha, hk, lookupFirst_append, hsingle, Option.or_none]

/-- C7: for every entry sequence, reading any key of the mapping built by
`parseQuerySafely` yields the first value of that key among the entries
when the key is allowed, and nothing at all for dangerous keys
(`__proto__`, `constructor`, `prototype`), bracketed keys and keys
starting with an underscore - the mapping is built without a prototype,
so excluded keys have no (inherited) value. In particular the query
string `__proto__=x&a=1&a=2` produces exactly the mapping `a = 1`. -/
theorem c7_parseQuerySafely_first_wins_and_filters :
    (∀ (entries : List (String × String)) (k : String),
      lookupFirst (parseQuerySafely entries) k =
        if isAllowedQueryKey k then lookupFirst entries k else none) ∧
    parseQuerySafely (urlSearchEntries "__proto__=x&a=1&a=2") = [("a", "1")] := by
  constructor
  · intro entries k
    have := parseQuerySafely_foldl_lookup entries [] k
    simpa [parseQuerySafely, lookupFirst_nil, Option.none_or] using this
  · decide

/-! ## Claim C8 -/

/-- The UTF-16 length is the sum of the character weights. -/
theorem utf16Len_eq_sum (s : String) :
    utf16Len s = (s.data.map utf16Weight).sum := by
  suffices h : ∀ (l : List Char) (a : Nat),
      l.foldl (fun n c => n + (if c.toNat ≥ 0x10000 then 2 else 1)) a =
        a + (l.map utf16Weight).sum by
    simpa [utf16Len] using h s.data 0
  intro l
  induction l with
  | nil => intro a; simp
  | cons c rest ih => intro a; simp [ih, utf16Weight]; omega

/-- Members of a UTF-16 prefix come from the original list. -/
theorem mem_takeUtf16 {x : Char} :
    ∀ (n : Nat) (l : List Char), x ∈ takeUtf16 n l → x ∈ l := by
  intro n l
  induction l generalizing n with
  | nil => intro hx; simp [takeUtf16] at hx
  | cons c rest ih =>
    intro hx
    rw [takeUtf16] at hx
    split at hx
    · rcases List.mem_cons.mp hx with rfl | h
      · exact List.mem_cons_self _ _
      · exact List.mem_cons_of_mem _ (ih _ h)
    · simp at hx

/-- A UTF-16 prefix of at most `n` units has UTF-16 length at most `n`. -/
theorem takeUtf16_weight_le :
    ∀ (n : Nat) (l : List Char), ((takeUtf16 n l).map utf16Weight).sum ≤ n := by
  intro n l
  induction l generalizing n with
  | nil => simp [takeUtf16]
  | cons c rest ih =>
    rw [takeUtf16]
    split
    · rename_i hw
      have := ih (n - utf16Weight c)
      simp only [List.map_cons, List.sum_cons]
      omega
    · simp

/-- Membership after a single global character replacement. -/
theorem mem_replaceAllChar {x c : Char} {repl l : List Char} :
    x ∈ replaceAllChar c repl l → x ∈ repl ∨ (x ∈ l ∧ x ≠ c) := by
  intro hx
  simp only [replaceAllChar, List.mem_flatMap] at hx
  rcases hx with ⟨a, ha, hxa⟩
  by_cases hac : a = c
  · subst hac
    simp only [if_pos rfl] at hxa
    exact Or.inl hxa
  · simp only [if_neg hac, List.mem_singleton] at hxa
    subst hxa
    exact Or.inr ⟨ha, hac⟩

/-- A character that is replaced, or was absent, and does not occur in
the replacement text, is absent afterwards. -/
theorem replaceAllChar_not_mem {x c : Char} {repl l : List Char}
    (hrepl : x ∉ repl) (h : x = c ∨ x ∉ l) :
    x ∉ replaceAllChar c repl l := by
  intro hx
  rcases mem_replaceAllChar hx with h1 | ⟨h2, h3⟩
  · exact hrepl h1
  · rcases h with rfl | h4
    · exact h3 rfl
    · exact h4 h2

/-- After the sequential HTML-escape passes, no raw angle bracket or
quote character remains. -/
theorem htmlEscape_no_specials (l : List Char) :
    '<' ∉ htmlEscape l ∧ '>' ∉ htmlEscape l ∧
    '"' ∉ htmlEscape l ∧ '\'' ∉ htmlEscape l := by
  unfold htmlEscape
  refine ⟨?_, ?_, ?_, ?_⟩
  · exact replaceAllChar_not_mem (by decide)
      (Or.inr (replaceAllChar_not_mem (by decide)
        (Or.inr (replaceAllChar_not_mem (by decide)
          (Or.inr (replaceAllChar_not_mem (by decide)
            (Or.inr (replaceAllChar_not_mem (by decide) (Or.inl rfl)))))))))
  · exact replaceAllChar_not_mem (by decide)
      (Or.inr (replaceAllChar_not_mem (by decide)
        (Or.inr (replaceAllChar_not_mem (by decide)
          (Or.inr (replaceAllChar_not_mem (by decide) (Or.inl rfl)))))))
  · exact replaceAllChar_not_mem (by decide)
      (Or.inr (replaceAllChar_not_mem (by decide)
        (Or.inr (replaceAllChar_not_mem (by decide) (Or.inl rfl)))))
  · exact replaceAllChar_not_mem (by decide)
      (Or.inr (replaceAllChar_not_mem (by decide) (Or.inl rfl)))

set_option maxHeartbeats 1600000 in
/-- C8: `sanitizeErrorMessage` collapses every non-string input to the
fixed string Internal server error; for every string input (and every
host NFKC normalization) the output contains no literal angle bracket
and no quote character at all - double or single - and its UTF-16 length
is at most 500; in particular the script-tag example is escaped to
entity form. -/
theorem c8_sanitizeErrorMessage_safe :
    (∀ nfkc : String → String,
      sanitizeErrorMessage nfkc .nonString = "Internal server error") ∧
    (∀ (nfkc : String → String) (s : String),
      ('<' ∉ (sanitizeErrorMessage nfkc (.str s)).data ∧
        '>' ∉ (sanitizeErrorMessage nfkc (.str s)).data ∧
        '"' ∉ (sanitizeErrorMessage nfkc (.str s)).data ∧
        '\'' ∉ (sanitizeErrorMessage nfkc (.str s)).data) ∧
      utf16Len (sanitizeErrorMessage nfkc (.str s)) ≤ 500) ∧
    sanitizeErrorMessage id (.str "<script>alert(1)</script>") =
      "&lt;script&gt;alert(1)&lt;&#x2F;script&gt;" := by
  refine ⟨fun _ => rfl, ?_, by decide⟩
  intro nfkc s
  obtain ⟨h1, h2, h3, h4⟩ := htmlEscape_no_specials
    (stripDangerousSchemes (stripZeroWidth (stripControlCharacters (nfkc s).data)))
  have hdata : (sanitizeErrorMessage nfkc (.str s)).data =
      takeUtf16 MAX_ERROR_MESSAGE_LENGTH
        (htmlEscape (stripDangerousSchemes
          (stripZeroWidth (stripControlCharacters (nfkc s).data)))) := by
    simp only [sanitizeErrorMessage]
  have hmem : ∀ y : Char, y ∈ (sanitizeErrorMessage nfkc (.str s)).data →
      y ∈ htmlEscape (stripDangerousSchemes
        (stripZeroWidth (stripControlCharacters (nfkc s).data))) := by
    intro y hy
    rw [hdata] at hy
    exact mem_takeUtf16 _ _ hy
  refine ⟨⟨fun h => h1 (hmem _ h), fun h => h2 (hmem _ h),
    fun h => h3 (hmem _ h), fun h => h4 (hmem _ h)⟩, ?_⟩
  rw [utf16Len_eq_sum, hdata]
  exact takeUtf16_weight_le _ _

/-! ## Claim C6 -/

/-- C6: `sanitizePathParam` fails exactly when the raw value is longer
than 200 UTF-16 units, or the lowercased raw value contains `%2e%2e`,
`%2f` or `%5c`, or percent-decoding fails, or the decoded value is
longer than 200, or the decoded value contains `..`, `/`, `\` or NUL;
and for every over-long value it fails with the raw-length message
before attempting URL-decoding (even when the value is also invalid
percent-encoding). -/
theorem c6_sanitizePathParam_failure_iff :
    ∀ v : String,
    ((∃ e, sanitizePathParam v = .error e) ↔
      (utf16Len v > MAX_PATH_PARAM_LENGTH ∨
        strContains (lowerStr v) "%2e%2e" = true ∨
        strContains (lowerStr v) "%2f" = true ∨
        strContains (lowerStr v) "%5c" = true ∨
        decodeURIComponent v = none ∨
        (∃ d, decodeURIComponent v = some d ∧
          (utf16Len d > MAX_PATH_PARAM_LENGTH ∨
            strContains d ".." = true ∨ strContains d "/" = true ∨
            strContains d "\\" = true ∨ strContains d "\x00" = true)))) ∧
    (utf16Len v > MAX_PATH_PARAM_LENGTH →
      sanitizePathParam v =
        .error "Invalid path parameter: exceeds maximum length of 200 characters") := by
  intro v
  refine ⟨?_, fun h => by simp [sanitizePathParam, h]⟩
  by_cases h1 : utf16Len v > MAX_PATH_PARAM_LENGTH
  · exact iff_of_true
      ⟨"Invalid path parameter: exceeds maximum length of 200 characters",
        by simp [sanitizePathParam, h1]⟩ (Or.inl h1)
  · by_cases hm : (strContains (lowerStr v) "%2e%2e" ||
        strContains (lowerStr v) "%2f" || strContains (lowerStr v) "%5c") = true
    · refine iff_of_true
        ⟨"Invalid path parameter: encoded traversal detected",
          by simp [sanitizePathParam, h1, hm]⟩ ?_
      simp only [Bool.or_eq_true] at hm
      tauto
    · have hm3 : strContains (lowerStr v) "%2e%2e" = false ∧
          strContains (lowerStr v) "%2f" = false ∧
          strContains (lowerStr v) "%5c" = false := by
        have := hm
        simp only [Bool.or_eq_true, not_or, Bool.not_eq_true] at this
        exact ⟨this.1.1, this.1.2, this.2⟩
      obtain ⟨e1, e2, e3⟩ := hm3
      cases hd : decodeURIComponent v with
      | none =>
        exact iff_of_true
          ⟨"Invalid URL encoding in path parameter",
            by simp [sanitizePathParam, h1, e1, e2, e3, hd]⟩ (by tauto)
      | some d =>
        by_cases h4 : utf16Len d > MAX_PATH_PARAM_LENGTH
        · exact iff_of_true
            ⟨"Invalid path parameter: decoded value exceeds maximum length of 200 characters",
              by simp [sanitizePathParam, h1, e1, e2, e3, hd, h4]⟩
            (Or.inr (Or.inr (Or.inr (Or.inr (Or.inr ⟨d, rfl, Or.inl h4⟩)))))
        · by_cases ht : (strContains d ".." || strContains d "/" ||
              strContains d "\\") = true
          · refine iff_of_true
              ⟨"Invalid path parameter: path traversal detected",
                by simp [sanitizePathParam, h1, e1, e2, e3, hd, h4, ht]⟩
              (Or.inr (Or.inr (Or.inr (Or.inr (Or.inr ⟨d, rfl, ?_⟩)))))
            simp only [Bool.or_eq_true] at ht
            tauto
          · have ht3 : strContains d ".." = false ∧ strContains d "/" = false ∧
                strContains d "\\" = false := by
              have := ht
              simp only [Bool.or_eq_true, not_or, Bool.not_eq_true] at this
              exact ⟨this.1.1, this.1.2, this.2⟩
            obtain ⟨e5, e6, e7⟩ := ht3
            cases e8 : strContains d "\x00" with
            | true =>
              exact iff_of_true
                ⟨"Invalid path parameter: null byte detected",
                  by simp [sanitizePathParam, h1, e1, e2, e3, hd, h4, e5, e6,
                    e7, e8]⟩
                (Or.inr (Or.inr (Or.inr (Or.inr (Or.inr ⟨d, rfl,
                  Or.inr (Or.inr (Or.inr (Or.inr e8)))⟩)))))
            | false =>
              have hok : sanitizePathParam v = .ok d := by
                simp [sanitizePathParam, h1, e1, e2, e3, hd, h4, e5, e6, e7, e8]
              refine iff_of_false ?_ ?_
              · rintro ⟨e, he⟩
                rw [hok] at he
                exact Except.noConfusion he
              · rintro (h | h | h | h | h | ⟨d2, hd2, hcond⟩)
                · exact h1 h
                · simp [e1] at h
                · simp [e2] at h
                · simp [e3] at h
                · simp at h
                · cases hd2
                  rcases hcond with h | h | h | h | h
                  · exact h4 h
                  · simp [e5] at h
                  · simp [e6] at h
                  · simp [e7] at h
                  · simp [e8] at h

set_option maxRecDepth 4000 in
/-- C6 witness: a 201-character value fails with the raw-length message. -/
theorem c6_witness :
    sanitizePathParam (String.mk (List.replicate 201 'a')) =
      .error "Invalid path parameter: exceeds maximum length of 200 characters" :=
  (c6_sanitizePathParam_failure_iff (String.mk (List.replicate 201 'a'))).2
    (by decide)

/-! ## Claim C9 -/

/-- C9: for every request-body reader and every validator,
`parseAndValidateBody` produces the 415 outcome exactly when either the
declared schema is a content-type map none of whose keys is contained
(case-sensitively) in the Content-Type, or the schema is a single schema
with a non-empty supported-content-type list none of whose entries is
contained in the Content-Type. -/
theorem c9_parseAndValidateBody_415_iff :
    ∀ (B S E D : Type) (parseBody : String → Except String B)
      (validate : S → B → Except E D) (bodySchema : BodySchemaSpec S)
      (contentType : String) (supported : Option (List String)),
    parseAndValidateBody parseBody validate bodySchema contentType supported =
        BodyOutcome.unsupported415 ↔
      ((∃ entries, bodySchema = .multi entries ∧
          ∀ e ∈ entries, strContains contentType e.1 = false) ∨
        (∃ sch l, bodySchema = .single sch ∧ supported = some l ∧ l ≠ [] ∧
          ∀ t ∈ l, strContains contentType t = false)) := by
  intro B S E D parseBody validate bodySchema contentType supported
  cases bodySchema with
  | multi entries =>
    cases hf : entries.find? (fun e => strContains contentType e.1) with
    | some kv =>
      apply iff_of_false
      · intro h
        simp only [parseAndValidateBody, hf] at h
        cases hp : parseBody contentType with
        | error m => simp [hp] at h
        | ok raw =>
          cases hv : validate kv.2 raw with
          | error errs => simp [hp, hv] at h
          | ok d => simp [hp, hv] at h
      · rintro (⟨entries2, he, hall⟩ | ⟨sch, l, he, _⟩)
        · cases he
          have hkv := List.find?_some hf
          have hmem := List.mem_of_find?_eq_some hf
          rw [hall kv hmem] at hkv
          cases hkv
        · cases he
    | none =>
      apply iff_of_true
      · simp [parseAndValidateBody, hf]
      · exact Or.inl ⟨entries, rfl, by
          intro e he
          have := List.find?_eq_none.mp hf e he
          simpa using this⟩
  | single sch =>
    cases supported with
    | none =>
      apply iff_of_false
      · intro h
        simp only [parseAndValidateBody] at h
        cases hp : parseBody contentType with
        | error m => simp [hp] at h
        | ok raw =>
          cases hv : validate sch raw with
          | error errs => simp [hp, hv] at h
          | ok d => simp [hp, hv] at h
      · rintro (⟨entries2, he, _⟩ | ⟨sch2, l, _, hsup, _⟩)
        · cases he
        · cases hsup
    | some l =>
      by_cases hc : (l.length > 0 && !(l.any (fun t => strContains contentType t))) = true
      · apply iff_of_true
        · simp [parseAndValidateBody, hc]
        · have hpair : l.length > 0 ∧
              l.any (fun t => strContains contentType t) = false := by
            simpa using hc
          obtain ⟨h1, h2⟩ := hpair
          refine Or.inr ⟨sch, l, rfl, rfl, ?_, ?_⟩
          · intro hnil
            rw [hnil] at h1
            simp at h1
          · intro t ht
            have := List.any_eq_false.mp h2 t ht
            simpa using this
      · apply iff_of_false
        · intro h
          simp only [parseAndValidateBody, hc] at h
          cases hp : parseBody contentType with
          | error m => simp [hp] at h
          | ok raw =>
            cases hv : validate sch raw with
            | error errs => simp [hp, hv] at h
            | ok d => simp [hp, hv] at h
        · rintro (⟨entries2, he, _⟩ | ⟨sch2, l2, he, hsup, hne, hall⟩)
          · cases he
          · cases hsup
            apply hc
            have hany : l.any (fun t => strContains contentType t) = false :=
              List.any_eq_false.mpr (by intro t ht; simp [hall t ht])
            have hlen : 0 < l.length := List.length_pos.mpr hne
            simp [hany, hlen]

/-! ## Claim C4 -/

/-- C4 counterexample: the 404 response the dispatcher returns for a
request with no matching route is an error response of the pipeline with
a JSON `\x7berror: ...\x7d` body, yet it carries neither the
`X-Content-Type-Options: nosniff` header nor even a
`Content-Type: application/json` header - its only headers are the CORS
set. -/
theorem c4_counterexample_noMatch404_headers :
    (noMatchResponse ["GET", "OPTIONS"]).status = 404 ∧
    bodyHasErrorString (noMatchResponse ["GET", "OPTIONS"]) = true ∧
    hasHeader (noMatchResponse ["GET", "OPTIONS"]) "X-Content-Type-Options" = false ∧
    hasHeader (noMatchResponse ["GET", "OPTIONS"]) "Content-Type" = false := by
  refine ⟨rfl, by decide, by decide, by decide⟩

/-- C4 amended: error responses built by the error-helper constructors
(`createErrorResponse` and the 4xx/5xx helpers on top of it, used for
the auth errors) carry both `Content-Type: application/json` and
`X-Content-Type-Options: nosniff`; the dispatcher-inline error responses
do not carry `X-Content-Type-Options` - the no-match 404 carries only
the CORS headers (no `Content-Type` either), while the 400
sanitization-failure response and the 415 unsupported-media-type
response carry `Content-Type: application/json` (plus, for the 400, the
CORS headers) but no `X-Content-Type-Options`. All of them are JSON
bodies of shape `\x7berror: string, ...\x7d`. -/
theorem c4_amended_error_response_headers :
    (∀ (nfkc : String → String) (msg : String) (status : Nat)
        (cause : Option JVal),
      hasHeader (createErrorResponse nfkc msg status cause) "Content-Type" = true ∧
      hasHeader (createErrorResponse nfkc msg status cause)
        "X-Content-Type-Options" = true ∧
      bodyHasErrorString (createErrorResponse nfkc msg status cause) = true) ∧
    (∀ methods : List String,
      hasHeader (noMatchResponse methods) "X-Content-Type-Options" = false ∧
      hasHeader (noMatchResponse methods) "Content-Type" = false ∧
      (noMatchResponse methods).status = 404 ∧
      bodyHasErrorString (noMatchResponse methods) = true) ∧
    (∀ (nfkc : String → String) (methods : List String) (msg : String),
      hasHeader (sanitizeFailResponse nfkc (defaultCorsHeaders methods) msg)
        "Content-Type" = true ∧
      hasHeader (sanitizeFailResponse nfkc (defaultCorsHeaders methods) msg)
        "X-Content-Type-Options" = false ∧
      (sanitizeFailResponse nfkc (defaultCorsHeaders methods) msg).status = 400 ∧
      bodyHasErrorString (sanitizeFailResponse nfkc (defaultCorsHeaders methods) msg) = true) ∧
    (unsupportedMediaTypeResponse.status = 415 ∧
      hasHeader unsupportedMediaTypeResponse "Content-Type" = true ∧
      hasHeader unsupportedMediaTypeResponse "X-Content-Type-Options" = false ∧
      bodyHasErrorString unsupportedMediaTypeResponse = true) := by
  refine ⟨?_, ?_, ?_, by decide⟩
  · intro nfkc msg status cause
    refine ⟨by simp [hasHeader, createErrorResponse],
      by simp [hasHeader, createErrorResponse], ?_⟩
    simp [bodyHasErrorString, createErrorResponse]
  · intro methods
    refine ⟨?_, ?_, rfl, by simp [bodyHasErrorString, noMatchResponse]⟩ <;>
      simp [hasHeader, noMatchResponse, defaultCorsHeaders]
  · intro nfkc methods msg
    refine ⟨?_, ?_, rfl, by simp [bodyHasErrorString, sanitizeFailResponse]⟩ <;>
      simp [hasHeader, sanitizeFailResponse, defaultCorsHeaders]

end RouterCore
